import Mathlib

/-!
# Phusion Passenger, `ext/apache2/Utils.h`: a shallow embedding

The header defines two pieces of code in full, `toString` for a vector of
strings and the class `BufferedUpload`; both are embedded from the C++ text.
The functions it only declares (`determineLowestUserAndGroup`,
`getPassengerTempDir`, `getFileType`) are modelled from the specification and
from the documentation comments of the header, and are marked as such.

Conventions.
* A C string (and a `std::string` holding a path) is the `String` of its
  characters before the terminating NUL; one `Char` stands for one `char`.
* The C library and the kernel are outside the header. Their answers during one
  run are collected in a record `Libc`; the state they act on (directory
  entries, `errno`, the sequence of calls issued) is a record `Sys`.
* The widths of `unsigned int` and of `size_t`, and the constant `PATH_MAX`,
  come from the platform headers and are parameters.
-/

set_option linter.dupNamespace false

namespace Passenger

deriving instance DecidableEq for Except

/-! ## `toString` for `vector<string>` (Utils.h, lines 99 to 128) -/

/-- The `for` loop of `AnythingToString< vector<string> >::operator()`. The
iterator is the list of elements still to visit, `i` is the `unsigned int`
counter (incremented modulo `2 ^ uintBits`), `size` is `v.size()`, and the
subtraction `v.size() - 1` is performed in `size_t` (modulo `2 ^ sizeBits`). -/
def toStringLoop (uintBits sizeBits size : Nat) : List String → Nat → String → String
  | [], _, result => result
  | s :: rest, i, result =>
    let result := (result.append "'").append s
    let result :=
      if i = (size + 2 ^ sizeBits - 1) % 2 ^ sizeBits then result.append "'"
      else result.append "', "
    toStringLoop uintBits sizeBits size rest ((i + 1) % 2 ^ uintBits) result

/-- The function `toString(v)` for `T = vector<string>`. -/
def toString (uintBits sizeBits : Nat) (v : List String) : String :=
  (toStringLoop uintBits sizeBits (v.length % 2 ^ sizeBits) v 0 "[").append "]"

/-- The text the specification describes: the elements in order, each wrapped in
single quotes, separated by a comma and a blank, between square brackets. -/
def quotedList (v : List String) : String :=
  "[" ++ ", ".intercalate (v.map fun s => "'" ++ s ++ "'") ++ "]"

/-- The same text by recursion on the list: only the last element is not
followed by the separator. -/
def quotedElems : List String → String
  | [] => ""
  | [s] => "'" ++ s ++ "'"
  | s :: t :: rest => "'" ++ s ++ "', " ++ quotedElems (t :: rest)

/-- Every element wrapped in quotes and followed by the separator, the last one
included. -/
def allFollowed : List String → String
  | [] => ""
  | s :: rest => "'" ++ s ++ "', " ++ allFollowed rest

/-! ## The C library and the kernel, as seen by `BufferedUpload` -/

def ENOENT : Int := 2
def EPERM : Int := 1
def EEXIST : Int := 17
def EINVAL : Int := 22
def ENOMEM : Int := 12

/-- The alphabet `mkstemp` draws file names from. -/
def letters : List Char :=
  "abcdefghijklmnopqrstuvwxyzABCDEFGHIJKLMNOPQRSTUVWXYZ0123456789".data

/-- The six characters `mkstemp` writes over the trailing `XXXXXX`, each given by
its position in `letters`. -/
structure Suffix where
  c0 : Fin 62
  c1 : Fin 62
  c2 : Fin 62
  c3 : Fin 62
  c4 : Fin 62
  c5 : Fin 62
deriving DecidableEq, Repr

def letter (i : Fin 62) : Char := letters.getD i.val 'X'

def Suffix.chars (x : Suffix) : List Char :=
  [letter x.c0, letter x.c1, letter x.c2, letter x.c3, letter x.c4, letter x.c5]

/-- The six placeholder characters a `mkstemp` template must end in. -/
def placeholders : List Char := "XXXXXX".data

/-- What `mkstemp` does with a well-formed template: it creates the file under the
name it picked and returns a descriptor, or it fails with an error code and leaves
some six characters in the buffer. -/
inductive MkstempOutcome where
  | created (fd : Nat) (name : Suffix)
  | failed (errno : Int) (left : Suffix)
deriving DecidableEq, Repr

/-- A stdio stream: a non-null `FILE *`. -/
structure FILE where
  fd : Int
  mode : String
deriving DecidableEq, Repr

/-- The library calls that `BufferedUpload` issues. -/
inductive Call where
  | mkstemp (templ : String)
  | fchmod (fd : Int) (mode : Nat)
  | unlink (path : String)
  | fdopen (fd : Int) (mode : String)
  | fclose (stream : FILE)
deriving DecidableEq, Repr

/-- The answers of the C library and the kernel during one run: `none` for a call
that succeeds, `some e` for one that fails with error code `e`. -/
structure Libc where
  mkstempOutcome : MkstempOutcome
  snprintfErrno : Option Int
  fchmodErrno : Option Int
  unlinkErrno : Option Int
  fdopenErrno : Option Int

/-- The state the calls act on: the path names that have a directory entry, the
value of `errno`, and the calls issued so far, oldest first. -/
structure Sys where
  entries : List String
  errno : Int
  calls : List Call
deriving DecidableEq, Repr

/-- The call `snprintf(buf, size, ...)`, given the fully formatted text: the buffer
receives its first `size - 1` characters and a terminator. The call may change
`errno`. -/
def snprintf (os : Libc) (size : Nat) (formatted : String) (s : Sys) : String × Sys :=
  (⟨formatted.data.take (size - 1)⟩,
    match os.snprintfErrno with
    | none => s
    | some e => { s with errno := e })

/-- The call `mkstemp(templ)`: the descriptor or `-1`, the contents of the
template buffer afterwards, and the new state. A template that does not end in
`XXXXXX` is refused with `EINVAL`; the file is created exclusively, so a name
that already has an entry is refused with `EEXIST`. -/
def mkstemp (os : Libc) (templ : String) (s : Sys) : Int × String × Sys :=
  let s := { s with calls := s.calls ++ [Call.mkstemp templ] }
  if templ.data.drop (templ.data.length - 6) ≠ placeholders then
    (-1, templ, { s with errno := EINVAL })
  else
    let stem := templ.data.take (templ.data.length - 6)
    match os.mkstempOutcome with
    | .failed e left => (-1, ⟨stem ++ left.chars⟩, { s with errno := e })
    | .created fd name =>
      let path : String := ⟨stem ++ name.chars⟩
      if path ∈ s.entries then (-1, path, { s with errno := EEXIST })
      else (fd, path, { s with entries := path :: s.entries })

/-- The call `fchmod(fd, mode)`. -/
def fchmod (os : Libc) (fd : Int) (mode : Nat) (s : Sys) : Int × Sys :=
  let s := { s with calls := s.calls ++ [Call.fchmod fd mode] }
  match os.fchmodErrno with
  | none => (0, s)
  | some e => (-1, { s with errno := e })

/-- The call `unlink(path)`: on success the directory entry is gone, on failure it
stays. -/
def unlink (os : Libc) (path : String) (s : Sys) : Int × Sys :=
  let s := { s with calls := s.calls ++ [Call.unlink path] }
  if path ∉ s.entries then (-1, { s with errno := ENOENT })
  else
    match os.unlinkErrno with
    | none => (0, { s with entries := s.entries.filter (· ≠ path) })
    | some e => (-1, { s with errno := e })

/-- The call `fdopen(fd, mode)`: a stream, or `none` for the null pointer. -/
def fdopen (os : Libc) (fd : Int) (mode : String) (s : Sys) : Option FILE × Sys :=
  let s := { s with calls := s.calls ++ [Call.fdopen fd mode] }
  match os.fdopenErrno with
  | none => (some ⟨fd, mode⟩, s)
  | some e => (none, { s with errno := e })

/-- The call `fclose(stream)`. It is defined on a stream only: for the null pointer
the behaviour is undefined, which is the result `none`. -/
def fclose (stream : Option FILE) (s : Sys) : Option Sys :=
  match stream with
  | none => none
  | some f => some { s with calls := s.calls ++ [Call.fclose f] }

/-! ## `BufferedUpload` (Utils.h, lines 394 to 443) -/

/-- The arguments `SystemException(message, errorCode)` is constructed with. The
class itself is declared in `Exceptions.h`. -/
structure SystemException where
  message : String
  code : Int
deriving DecidableEq, Repr

/-- The class `BufferedUpload`: its one data member, the file handle. -/
structure BufferedUpload where
  handle : Option FILE
deriving DecidableEq, Repr

/-- The static method `BufferedUpload::getDir()`; the argument is the value that
`getPassengerTempDir()` returns. -/
def BufferedUpload.getDir (passengerTempDir : String) : String :=
  passengerTempDir ++ "/webserver_private"

/-- The constructor `BufferedUpload::BufferedUpload(identifier)`: the exception it
throws or the object it builds, and the state afterwards. The two assignments of a
terminator to the last cell of a buffer leave the text that `snprintf` wrote as it
is and have no counterpart here. -/
def BufferedUpload.BufferedUpload (PATH_MAX : Nat) (os : Libc) (passengerTempDir : String)
    (identifier : String) (s : Sys) : Except SystemException Passenger.BufferedUpload × Sys :=
  let (templ, s) := snprintf os PATH_MAX
    (BufferedUpload.getDir passengerTempDir ++ "/" ++ identifier ++ ".XXXXXX") s
  let (fd, templ, s) := mkstemp os templ s
  if fd = -1 then
    let e := s.errno
    let (message, s) := snprintf os 1024 ("Cannot create a temporary file '" ++ templ ++ "'") s
    (.error ⟨message, e⟩, s)
  else
    let (_, s) := fchmod os fd 0 s
    let (_, s) := unlink os templ s
    let (handle, s) := fdopen os fd "w+" s
    (.ok ⟨handle⟩, s)

/-- The destructor `BufferedUpload::~BufferedUpload()`. -/
def BufferedUpload.destructor (self : Passenger.BufferedUpload) (s : Sys) : Option Sys :=
  fclose self.handle s

/-- The template as the specification words it: the directory, the fixed
subdirectory name, the identifier and the six placeholders. -/
def fullTemplate (d identifier : String) : String :=
  d ++ "/webserver_private/" ++ identifier ++ ".XXXXXX"

/-- The text of `fullTemplate` cut to its first `PATH_MAX - 1` characters. -/
def cutTemplate (PATH_MAX : Nat) (d identifier : String) : String :=
  ⟨(fullTemplate d identifier).data.take (PATH_MAX - 1)⟩

/-- The directory part of a path name: what stands before its last slash. -/
def parentDir (path : String) : String :=
  ⟨((path.data.reverse.dropWhile (· ≠ '/')).drop 1).reverse⟩

/-- The last component of a path name: what stands after its last slash. -/
def fileName (path : String) : String :=
  ⟨(path.data.reverse.takeWhile (· ≠ '/')).reverse⟩

/-- The file the constructor creates, when it creates one: the contents of the
template buffer after a successful `mkstemp`. -/
def BufferedUpload.createdFile (PATH_MAX : Nat) (os : Libc) (passengerTempDir : String)
    (identifier : String) (s : Sys) : Option String :=
  let (templ, s) := snprintf os PATH_MAX
    (BufferedUpload.getDir passengerTempDir ++ "/" ++ identifier ++ ".XXXXXX") s
  let (fd, templ, _) := mkstemp os templ s
  if fd = -1 then none else some templ

/-! ## Functions the header only declares -/

/-- One record of the system account database: the ids found for a user name. -/
structure Account where
  uid : Int
  gid : Int
deriving DecidableEq, Repr

/-- How an identity was resolved (the specification, section 3). -/
inductive Provenance where
  | EXPLICIT
  | FALLBACK
  | UNRESOLVED
deriving DecidableEq, Repr

/-- The values left in the arguments `uid` and `gid`, with their provenance. -/
structure ResolvedIdentity where
  uid : Int
  gid : Int
  provenance : Provenance
deriving DecidableEq, Repr

/-- Modelled from the spec: the body of `determineLowestUserAndGroup`, which
Utils.h declares and documents but does not define. Section 4.3 and the comment
of the declaration: look the name up; if it is not found, look up the account
"nobody"; if neither is found, both ids are -1. -/
def determineLowestUserAndGroup (accounts : String → Option Account) (user : String) :
    ResolvedIdentity :=
  match accounts user with
  | some a => ⟨a.uid, a.gid, .EXPLICIT⟩
  | none =>
    match accounts "nobody" with
    | some a => ⟨a.uid, a.gid, .FALLBACK⟩
    | none => ⟨-1, -1, .UNRESOLVED⟩

/-- Modelled from the spec: the path `getPassengerTempDir` computes when it does
not take the binding (section 4.4): the system temp directory, which is the
argument when that is not empty, combined with a token unique to the server
instance. -/
def freshTempDir (getSystemTempDir token systemTempDir : String) : String :=
  (if systemTempDir = "" then getSystemTempDir else systemTempDir) ++ "/" ++ token

/-- Modelled from the spec: the body of `getPassengerTempDir`, which Utils.h
declares and documents but does not define. Section 4.4: with a binding of
`PASSENGER_INSTANCE_TEMP_DIR` and `bypassCache` false, the binding is returned
verbatim; otherwise a fresh path is computed, and only when `bypassCache` is false
it is bound in the environment. The postcondition of section 4.4 and of the
header (`@ensure !result.empty()`) is that the result is never empty, so a binding
to the empty text is not returned: it counts as no binding. The result is the
returned path and the binding afterwards. -/
def getPassengerTempDir (getSystemTempDir token : String) (bypassCache : Bool)
    (systemTempDir : String) (binding : Option String) : String × Option String :=
  match bypassCache, binding with
  | false, some value =>
    if value = "" then
      (freshTempDir getSystemTempDir token systemTempDir,
        some (freshTempDir getSystemTempDir token systemTempDir))
    else (value, some value)
  | false, none =>
    (freshTempDir getSystemTempDir token systemTempDir,
      some (freshTempDir getSystemTempDir token systemTempDir))
  | true, _ => (freshTempDir getSystemTempDir token systemTempDir, binding)

/-- The binding after a sequence of calls of `getPassengerTempDir` in one process,
each call given by its two arguments. -/
def bindingAfter (getSystemTempDir token : String) :
    List (Bool × String) → Option String → Option String
  | [], binding => binding
  | (bypassCache, systemTempDir) :: rest, binding =>
    bindingAfter getSystemTempDir token rest
      (getPassengerTempDir getSystemTempDir token bypassCache systemTempDir binding).2

/-- The enumeration `FileType` of Utils.h. -/
inductive FileType where
  | FT_NONEXISTANT
  | FT_REGULAR
  | FT_DIRECTORY
  | FT_OTHER
deriving DecidableEq, Repr

/-- What one `stat` call on a path answers: the kind of file, or an error code. -/
inductive StatAnswer where
  | regular
  | directory
  | other
  | failed (errno : Int)
deriving DecidableEq, Repr

/-- The failure of a read-only probe, with the error code of the call. -/
structure FileSystemException where
  code : Int
deriving DecidableEq, Repr

/-- One entry of the stat cache (the specification, section 3). -/
structure CachedStatEntry where
  path : String
  fileType : FileType
  lastCheckedAt : Nat
deriving DecidableEq, Repr

/-- Modelled from the spec: the type `CachedMultiFileStat`, which Utils.h only
declares. Its entries, one per path queried, and the number of real `stat` calls
made through it. -/
structure CachedMultiFileStat where
  entries : List CachedStatEntry
  statCalls : Nat
deriving DecidableEq, Repr

/-- Modelled from the spec: one real `stat` call and its classification (section
4.2): the error `ENOENT` is the type `FT_NONEXISTANT`, any other error is a
failure. -/
def statFileType (disk : String → StatAnswer) (filename : String) :
    Except FileSystemException FileType :=
  match disk filename with
  | .regular => .ok .FT_REGULAR
  | .directory => .ok .FT_DIRECTORY
  | .other => .ok .FT_OTHER
  | .failed e => if e = ENOENT then .ok .FT_NONEXISTANT else .error ⟨e⟩

/-- Modelled from the spec: the cached stat layer that Utils.h leaves to
`CachedMultiFileStat` (section 4.1). With no entry for the path, with an entry
whose age exceeds the throttle interval, or with a throttle interval of 0, a real
`stat` is made and on success the entry is updated; on failure the entry is left
unchanged. Otherwise the cached type is returned. The clock is the argument
`now`. -/
def classify (disk : String → StatAnswer) (now : Nat) (mstat : CachedMultiFileStat)
    (path : String) (throttleRate : Nat) :
    Except FileSystemException FileType × CachedMultiFileStat :=
  match mstat.entries.find? (fun e => e.path = path) with
  | some entry =>
    if throttleRate = 0 ∨ throttleRate < now - entry.lastCheckedAt then
      match statFileType disk path with
      | .ok t =>
        (.ok t, ⟨⟨path, t, now⟩ :: mstat.entries.filter (fun e => e.path ≠ path),
          mstat.statCalls + 1⟩)
      | .error x => (.error x, { mstat with statCalls := mstat.statCalls + 1 })
    else (.ok entry.fileType, mstat)
  | none =>
    match statFileType disk path with
    | .ok t => (.ok t, ⟨⟨path, t, now⟩ :: mstat.entries, mstat.statCalls + 1⟩)
    | .error x => (.error x, { mstat with statCalls := mstat.statCalls + 1 })

/-- Modelled from the spec: the body of `getFileType`, which Utils.h declares and
does not define (section 4.2): with a cache it goes through `classify`, without
one it makes a real `stat`. -/
def getFileType (disk : String → StatAnswer) (now : Nat) (filename : String)
    (mstat : Option CachedMultiFileStat) (throttleRate : Nat) :
    Except FileSystemException FileType × Option CachedMultiFileStat :=
  match mstat with
  | none => (statFileType disk filename, none)
  | some cache =>
    let r := classify disk now cache filename throttleRate
    (r.1, some r.2)

/-! ## Sample runs -/

/-- An account database with the user `deploy` and the account `nobody`. -/
def sampleAccounts : String → Option Account := fun name =>
  if name = "deploy" then some ⟨1001, 1001⟩
  else if name = "nobody" then some ⟨65534, 65534⟩
  else none

/-- An account database with no account at all. -/
def noAccounts : String → Option Account := fun _ => none

/-- A disk on which every path is a regular file. -/
def diskDeployed : String → StatAnswer := fun _ => .regular

/-- A disk on which no path exists. -/
def diskRemoved : String → StatAnswer := fun _ => .failed ENOENT

/-- A state with no directory entries and no calls issued. -/
def freshSys : Sys := ⟨[], 0, []⟩

/-- Every call succeeds; `mkstemp` returns descriptor 7 and picks
the name `a1b2c3`. -/
def libcOk : Libc := ⟨.created 7 ⟨0, 53, 1, 54, 2, 55⟩, none, none, none, none⟩

/-- The call `mkstemp` fails with `EACCES` (13) and leaves the placeholders; the
`snprintf` that follows sets `errno` to 34. -/
def libcMkstempFails : Libc :=
  ⟨.failed 13 ⟨49, 49, 49, 49, 49, 49⟩, some 34, none, none, none⟩

/-- The call `unlink` fails with `EPERM`, as it does in a directory marked
append-only; the other calls succeed. -/
def libcUnlinkFails : Libc :=
  ⟨.created 7 ⟨0, 53, 1, 54, 2, 55⟩, none, none, some EPERM, none⟩

/-- The call `fdopen` fails with `ENOMEM`; the other calls succeed. -/
def libcFdopenFails : Libc :=
  ⟨.created 7 ⟨0, 53, 1, 54, 2, 55⟩, none, none, none, some ENOMEM⟩

/-- A directory name of 4068 characters. -/
def longDir : String := ⟨'/' :: List.replicate 4067 'a'⟩

/-! ## Lemmas on `toString` -/

theorem append_def (a b : String) : a.append b = a ++ b := rfl

theorem toStringLoop_cons (uintBits sizeBits size : Nat) (s : String) (rest : List String)
    (i : Nat) (acc : String) :
    toStringLoop uintBits sizeBits size (s :: rest) i acc =
      toStringLoop uintBits sizeBits size rest ((i + 1) % 2 ^ uintBits)
        (if i = (size + 2 ^ sizeBits - 1) % 2 ^ sizeBits then acc ++ "'" ++ s ++ "'"
         else acc ++ "'" ++ s ++ "', ") := rfl

theorem quote_sep : "', " = "'" ++ ", " := by decide

theorem intercalate_go_quoted (l : List String) :
    ∀ (acc t : String),
      String.intercalate.go (acc ++ "'" ++ t ++ "'") ", " (l.map fun s => "'" ++ s ++ "'") =
        acc ++ quotedElems (t :: l) := by
  induction l with
  | nil => intro acc t; simp [String.intercalate.go, quotedElems, String.append_assoc]
  | cons a l ih =>
    intro acc t
    have h := ih (acc ++ "'" ++ t ++ "', ") a
    simp only [List.map_cons, String.intercalate.go, quotedElems, quote_sep,
      String.append_assoc] at h ⊢
    exact h

theorem quotedList_eq (v : List String) : quotedList v = "[" ++ quotedElems v ++ "]" := by
  cases v with
  | nil => simp [quotedList, quotedElems, String.intercalate]
  | cons t l =>
    have h := intercalate_go_quoted l "" t
    simp only [String.empty_append] at h
    simp only [quotedList, List.map_cons, String.intercalate]
    rw [h]

theorem toStringLoop_short (uintBits sizeBits size len : Nat)
    (hT : (size + 2 ^ sizeBits - 1) % 2 ^ sizeBits = len - 1) (hlen : len ≤ 2 ^ uintBits) :
    ∀ (rest : List String) (i : Nat) (acc : String), i + rest.length = len →
      toStringLoop uintBits sizeBits size rest i acc = acc ++ quotedElems rest := by
  intro rest
  induction rest with
  | nil => intro i acc _; simp [toStringLoop, quotedElems]
  | cons s r ih =>
    intro i acc hi
    rw [toStringLoop_cons, hT]
    cases r with
    | nil =>
      simp only [List.length_cons, List.length_nil] at hi
      have : i = len - 1 := by omega
      simp [toStringLoop, quotedElems, this, String.append_assoc]
    | cons t r =>
      simp only [List.length_cons] at hi ih
      have hne : i ≠ len - 1 := by omega
      have hnext : (i + 1) % 2 ^ uintBits = i + 1 := Nat.mod_eq_of_lt (by omega)
      rw [if_neg hne, hnext, ih (i + 1) _ (by omega)]
      simp [quotedElems, String.append_assoc]

theorem toStringLoop_long (uintBits sizeBits size : Nat)
    (hT : 2 ^ uintBits ≤ (size + 2 ^ sizeBits - 1) % 2 ^ sizeBits) :
    ∀ (rest : List String) (i : Nat) (acc : String), i < 2 ^ uintBits →
      toStringLoop uintBits sizeBits size rest i acc = acc ++ allFollowed rest := by
  intro rest
  induction rest with
  | nil => intro i acc _; simp [toStringLoop, allFollowed]
  | cons s r ih =>
    intro i acc hi
    have hne : i ≠ (size + 2 ^ sizeBits - 1) % 2 ^ sizeBits := by omega
    rw [toStringLoop_cons, if_neg hne, ih _ _ (Nat.mod_lt _ (by positivity))]
    simp [allFollowed, String.append_assoc]


theorem lastIndex_eq (sizeBits len : Nat) (h0 : 0 < len) (hs : len ≤ 2 ^ sizeBits) :
    (len % 2 ^ sizeBits + 2 ^ sizeBits - 1) % 2 ^ sizeBits = len - 1 := by
  have hP : 0 < 2 ^ sizeBits := by positivity
  rcases Nat.lt_or_ge len (2 ^ sizeBits) with h | h
  · have : len + 2 ^ sizeBits - 1 = (len - 1) + 2 ^ sizeBits := by omega
    rw [Nat.mod_eq_of_lt h, this, Nat.add_mod_right, Nat.mod_eq_of_lt (by omega)]
  · have : len = 2 ^ sizeBits := by omega
    rw [this, Nat.mod_self, Nat.zero_add, Nat.mod_eq_of_lt (by omega)]

/-- Support for C10: as long as the vector has no more elements than the counter
`i` has values, `toString` is the text the specification describes. -/
theorem toString_short (uintBits sizeBits : Nat) (v : List String)
    (hu : v.length ≤ 2 ^ uintBits) (hs : v.length ≤ 2 ^ sizeBits) :
    toString uintBits sizeBits v = quotedList v := by
  cases v with
  | nil => simp [toString, toStringLoop, quotedList, String.intercalate, append_def]
  | cons t l =>
    have hT := lastIndex_eq sizeBits (t :: l).length (by simp) hs
    rw [quotedList_eq, toString, append_def,
      toStringLoop_short uintBits sizeBits _ (t :: l).length hT hu (t :: l) 0 "[" (by simp)]

theorem length_allFollowed_replicate (n : Nat) :
    (allFollowed (List.replicate n "")).length = 4 * n := by
  induction n with
  | zero => simp [allFollowed]
  | succ n ih =>
    simp only [List.replicate_succ, allFollowed, String.length_append, ih]
    have h1 : "'".length = 1 := by decide
    have h2 : "', ".length = 3 := by decide
    have h3 : "".length = 0 := by decide
    omega

theorem length_quotedElems_replicate (n : Nat) :
    (quotedElems (List.replicate (n + 1) "")).length = 4 * n + 2 := by
  induction n with
  | zero => simp [quotedElems]; decide
  | succ n ih =>
    rw [List.replicate_succ, List.replicate_succ, quotedElems, ← List.replicate_succ]
    simp only [String.length_append, ih]
    have h1 : "'".length = 1 := by decide
    have h2 : "', ".length = 3 := by decide
    have h3 : "".length = 0 := by decide
    omega

/-- C10, at a vector of `2 ^ 32 + 1` empty strings on a platform with a 32-bit
`unsigned int` and a 64-bit `size_t`: the counter wraps around to `0` and never
equals `v.size() - 1`, so every element, the last one included, is followed by
the separator, and the output is not the text the specification describes. -/
theorem toString_giant :
    toString 32 64 (List.replicate (2 ^ 32 + 1) "") =
        "[" ++ allFollowed (List.replicate (2 ^ 32 + 1) "") ++ "]" ∧
      toString 32 64 (List.replicate (2 ^ 32 + 1) "") ≠
        quotedList (List.replicate (2 ^ 32 + 1) "") := by
  have hT : 2 ^ 32 ≤ ((2 ^ 32 + 1) % 2 ^ 64 + 2 ^ 64 - 1) % 2 ^ 64 := by norm_num
  have hrun : toString 32 64 (List.replicate (2 ^ 32 + 1) "") =
      "[" ++ allFollowed (List.replicate (2 ^ 32 + 1) "") ++ "]" := by
    rw [toString, append_def, List.length_replicate,
      toStringLoop_long 32 64 _ hT _ 0 "[" (by norm_num)]
  refine ⟨hrun, fun h => ?_⟩
  have hl := congrArg String.length h
  rw [hrun, quotedList_eq] at hl
  simp only [String.length_append, length_allFollowed_replicate,
    length_quotedElems_replicate] at hl
  have h1 : "[".length = 1 := by decide
  have h2 : "]".length = 1 := by decide
  omega

/-! ## Lemmas on the library calls -/

theorem getDir_template (d identifier : String) :
    BufferedUpload.getDir d ++ "/" ++ identifier ++ ".XXXXXX" = fullTemplate d identifier := by
  have h : "/webserver_private/" = "/webserver_private" ++ "/" := by decide
  simp only [BufferedUpload.getDir, fullTemplate, h, String.append_assoc]

theorem snprintf_calls (os : Libc) (size : Nat) (formatted : String) (s : Sys) :
    (snprintf os size formatted s).2.calls = s.calls := by
  unfold snprintf; cases os.snprintfErrno <;> rfl

theorem snprintf_entries (os : Libc) (size : Nat) (formatted : String) (s : Sys) :
    (snprintf os size formatted s).2.entries = s.entries := by
  unfold snprintf; cases os.snprintfErrno <;> rfl

theorem mkstemp_malformed (os : Libc) (templ : String) (s : Sys)
    (hX : templ.data.drop (templ.data.length - 6) ≠ placeholders) :
    mkstemp os templ s =
      (-1, templ, { s with calls := s.calls ++ [Call.mkstemp templ], errno := EINVAL }) := by
  unfold mkstemp
  dsimp only
  rw [if_pos hX]

theorem mkstemp_failed (os : Libc) (templ : String) (s : Sys) (e : Int) (left : Suffix)
    (hX : templ.data.drop (templ.data.length - 6) = placeholders)
    (hO : os.mkstempOutcome = .failed e left) :
    mkstemp os templ s =
      (-1, ⟨templ.data.take (templ.data.length - 6) ++ left.chars⟩,
        { s with calls := s.calls ++ [Call.mkstemp templ], errno := e }) := by
  unfold mkstemp
  dsimp only
  rw [if_neg (not_not.mpr hX), hO]

theorem mkstemp_exists (os : Libc) (templ : String) (s : Sys) (fd : Nat) (name : Suffix)
    (hX : templ.data.drop (templ.data.length - 6) = placeholders)
    (hO : os.mkstempOutcome = .created fd name)
    (hmem : (⟨templ.data.take (templ.data.length - 6) ++ name.chars⟩ : String) ∈ s.entries) :
    mkstemp os templ s =
      (-1, ⟨templ.data.take (templ.data.length - 6) ++ name.chars⟩,
        { s with calls := s.calls ++ [Call.mkstemp templ], errno := EEXIST }) := by
  unfold mkstemp
  dsimp only
  rw [if_neg (not_not.mpr hX), hO]
  dsimp only
  rw [if_pos hmem]

theorem mkstemp_created (os : Libc) (templ : String) (s : Sys) (fd : Nat) (name : Suffix)
    (hX : templ.data.drop (templ.data.length - 6) = placeholders)
    (hO : os.mkstempOutcome = .created fd name)
    (hmem : (⟨templ.data.take (templ.data.length - 6) ++ name.chars⟩ : String) ∉ s.entries) :
    mkstemp os templ s =
      ((fd : Int), ⟨templ.data.take (templ.data.length - 6) ++ name.chars⟩,
        { s with calls := s.calls ++ [Call.mkstemp templ],
                 entries := ⟨templ.data.take (templ.data.length - 6) ++ name.chars⟩ :: s.entries }) := by
  unfold mkstemp
  dsimp only
  rw [if_neg (not_not.mpr hX), hO]
  dsimp only
  rw [if_neg hmem]

/-- The four ways a call of `mkstemp` can go. -/
theorem mkstemp_cases (os : Libc) (templ : String) (s : Sys) :
    (∃ e t, mkstemp os templ s =
        (-1, t, { s with calls := s.calls ++ [Call.mkstemp templ], errno := e })) ∨
    (∃ (fd : Nat) (name : Suffix),
      templ.data.drop (templ.data.length - 6) = placeholders ∧
      (⟨templ.data.take (templ.data.length - 6) ++ name.chars⟩ : String) ∉ s.entries ∧
      mkstemp os templ s =
        ((fd : Int), ⟨templ.data.take (templ.data.length - 6) ++ name.chars⟩,
          { s with calls := s.calls ++ [Call.mkstemp templ],
                   entries := ⟨templ.data.take (templ.data.length - 6) ++ name.chars⟩ ::
                     s.entries })) := by
  by_cases hX : templ.data.drop (templ.data.length - 6) = placeholders
  · cases hO : os.mkstempOutcome with
    | failed e left => exact Or.inl ⟨e, _, mkstemp_failed os templ s e left hX hO⟩
    | created fd name =>
      by_cases hmem :
          (⟨templ.data.take (templ.data.length - 6) ++ name.chars⟩ : String) ∈ s.entries
      · exact Or.inl ⟨EEXIST, _, mkstemp_exists os templ s fd name hX hO hmem⟩
      · exact Or.inr ⟨fd, name, hX, hmem, mkstemp_created os templ s fd name hX hO hmem⟩
  · exact Or.inl ⟨EINVAL, _, mkstemp_malformed os templ s hX⟩

theorem mkstemp_calls (os : Libc) (templ : String) (s : Sys) :
    (mkstemp os templ s).2.2.calls = s.calls ++ [Call.mkstemp templ] := by
  rcases mkstemp_cases os templ s with ⟨e, t, h⟩ | ⟨fd, name, _, _, h⟩ <;> rw [h]

theorem mkstemp_entries_of_fail (os : Libc) (templ : String) (s : Sys)
    (h : (mkstemp os templ s).1 = -1) : (mkstemp os templ s).2.2.entries = s.entries := by
  rcases mkstemp_cases os templ s with ⟨e, t, h1⟩ | ⟨fd, name, _, _, h1⟩
  · rw [h1]
  · rw [h1] at h
    simp only at h
    omega

/-! ## The constructor of `BufferedUpload` -/

theorem snprintf_eq (os : Libc) (PATH_MAX : Nat) (d identifier : String) (s : Sys) :
    snprintf os PATH_MAX (fullTemplate d identifier) s =
      (cutTemplate PATH_MAX d identifier,
        (snprintf os PATH_MAX (fullTemplate d identifier) s).2) := rfl

/-- The constructor on the path where `mkstemp` returns `-1`. -/
theorem constructor_of_fail (PATH_MAX : Nat) (os : Libc) (d identifier : String) (s : Sys)
    (t : String) (s1 : Sys)
    (hmk : mkstemp os (cutTemplate PATH_MAX d identifier)
      (snprintf os PATH_MAX (fullTemplate d identifier) s).2 = (-1, t, s1)) :
    BufferedUpload.BufferedUpload PATH_MAX os d identifier s =
      (.error ⟨(snprintf os 1024 ("Cannot create a temporary file '" ++ t ++ "'") s1).1,
          s1.errno⟩,
        (snprintf os 1024 ("Cannot create a temporary file '" ++ t ++ "'") s1).2) := by
  unfold BufferedUpload.BufferedUpload
  rw [getDir_template, snprintf_eq]
  dsimp only
  rw [hmk]
  rfl

/-- The constructor on the path where `mkstemp` returns a descriptor. -/
theorem constructor_of_created (PATH_MAX : Nat) (os : Libc) (d identifier : String) (s : Sys)
    (fd : Int) (t : String) (s1 : Sys)
    (hmk : mkstemp os (cutTemplate PATH_MAX d identifier)
      (snprintf os PATH_MAX (fullTemplate d identifier) s).2 = (fd, t, s1))
    (hfd : fd ≠ -1) :
    BufferedUpload.BufferedUpload PATH_MAX os d identifier s =
      (.ok ⟨(fdopen os fd "w+" (unlink os t (fchmod os fd 0 s1).2).2).1⟩,
        (fdopen os fd "w+" (unlink os t (fchmod os fd 0 s1).2).2).2) := by
  unfold BufferedUpload.BufferedUpload
  rw [getDir_template, snprintf_eq]
  dsimp only
  rw [hmk]
  dsimp only
  rw [if_neg hfd]

theorem fchmod_calls (os : Libc) (fd : Int) (mode : Nat) (s : Sys) :
    (fchmod os fd mode s).2.calls = s.calls ++ [Call.fchmod fd mode] := by
  unfold fchmod; cases os.fchmodErrno <;> rfl

theorem fchmod_entries (os : Libc) (fd : Int) (mode : Nat) (s : Sys) :
    (fchmod os fd mode s).2.entries = s.entries := by
  unfold fchmod; cases os.fchmodErrno <;> rfl

theorem unlink_calls (os : Libc) (path : String) (s : Sys) :
    (unlink os path s).2.calls = s.calls ++ [Call.unlink path] := by
  unfold unlink
  dsimp only
  split
  · rfl
  · cases os.unlinkErrno <;> rfl

theorem fdopen_calls (os : Libc) (fd : Int) (mode : String) (s : Sys) :
    (fdopen os fd mode s).2.calls = s.calls ++ [Call.fdopen fd mode] := by
  unfold fdopen; cases os.fdopenErrno <;> rfl

theorem fdopen_entries (os : Libc) (fd : Int) (mode : String) (s : Sys) :
    (fdopen os fd mode s).2.entries = s.entries := by
  unfold fdopen; cases os.fdopenErrno <;> rfl

theorem fdopen_fst (os : Libc) (fd : Int) (mode : String) (s : Sys) :
    (fdopen os fd mode s).1 =
      match os.fdopenErrno with
      | none => some ⟨fd, mode⟩
      | some _ => none := by
  unfold fdopen; cases os.fdopenErrno <;> rfl

/-- The calls of a run in which `mkstemp` returns a descriptor. -/
theorem constructor_calls_of_created (PATH_MAX : Nat) (os : Libc) (d identifier : String)
    (s : Sys) (fd : Int) (t : String) (s1 : Sys)
    (hmk : mkstemp os (cutTemplate PATH_MAX d identifier)
      (snprintf os PATH_MAX (fullTemplate d identifier) s).2 = (fd, t, s1))
    (hfd : fd ≠ -1) :
    (BufferedUpload.BufferedUpload PATH_MAX os d identifier s).2.calls =
      s.calls ++ [Call.mkstemp (cutTemplate PATH_MAX d identifier), Call.fchmod fd 0,
        Call.unlink t, Call.fdopen fd "w+"] := by
  have hc := mkstemp_calls os (cutTemplate PATH_MAX d identifier)
    (snprintf os PATH_MAX (fullTemplate d identifier) s).2
  rw [hmk, snprintf_calls] at hc
  rw [constructor_of_created PATH_MAX os d identifier s fd t s1 hmk hfd, fdopen_calls,
    unlink_calls, fchmod_calls]
  simp only at hc
  rw [hc]
  simp

/-- The calls of a run in which `mkstemp` returns `-1`. -/
theorem constructor_calls_of_fail (PATH_MAX : Nat) (os : Libc) (d identifier : String)
    (s : Sys) (t : String) (s1 : Sys)
    (hmk : mkstemp os (cutTemplate PATH_MAX d identifier)
      (snprintf os PATH_MAX (fullTemplate d identifier) s).2 = (-1, t, s1)) :
    (BufferedUpload.BufferedUpload PATH_MAX os d identifier s).2.calls =
      s.calls ++ [Call.mkstemp (cutTemplate PATH_MAX d identifier)] := by
  have hc := mkstemp_calls os (cutTemplate PATH_MAX d identifier)
    (snprintf os PATH_MAX (fullTemplate d identifier) s).2
  rw [hmk, snprintf_calls] at hc
  rw [constructor_of_fail PATH_MAX os d identifier s t s1 hmk, snprintf_calls]
  exact hc

/-- What `mkstemp` leaves in the buffer differs from the template in its last six
characters at most. -/
theorem mkstemp_buffer (os : Libc) (templ : String) (s : Sys) :
    (mkstemp os templ s).2.1.data.take (templ.data.length - 6) =
        templ.data.take (templ.data.length - 6) ∧
      (mkstemp os templ s).2.1.data.length = templ.data.length := by
  by_cases hX : templ.data.drop (templ.data.length - 6) = placeholders
  · have hlen : 6 ≤ templ.data.length := by
      have := congrArg List.length hX
      simp only [List.length_drop] at this
      have h6 : placeholders.length = 6 := by decide
      omega
    have key : ∀ x : Suffix,
        (templ.data.take (templ.data.length - 6) ++ x.chars).take (templ.data.length - 6) =
            templ.data.take (templ.data.length - 6) ∧
          (templ.data.take (templ.data.length - 6) ++ x.chars).length = templ.data.length := by
      intro x
      constructor
      · rw [List.take_append_of_le_length (by simp), List.take_take]
        simp
      · simp only [List.length_append, List.length_take, Suffix.chars, List.length_cons,
          List.length_nil]
        omega
    cases hO : os.mkstempOutcome with
    | failed e left => rw [mkstemp_failed os templ s e left hX hO]; exact key left
    | created fd name =>
      by_cases hmem :
          (⟨templ.data.take (templ.data.length - 6) ++ name.chars⟩ : String) ∈ s.entries
      · rw [mkstemp_exists os templ s fd name hX hO hmem]; exact key name
      · rw [mkstemp_created os templ s fd name hX hO hmem]; exact key name
  · rw [mkstemp_malformed os templ s hX]
    exact ⟨rfl, rfl⟩

theorem fullTemplate_data (d identifier : String) :
    (fullTemplate d identifier).data =
      (d ++ "/webserver_private/" ++ identifier).data ++ '.' :: placeholders := by
  simp [fullTemplate, placeholders]

theorem fullTemplate_ends (d identifier : String) :
    (fullTemplate d identifier).data.drop ((fullTemplate d identifier).data.length - 6) =
      placeholders := by
  rw [fullTemplate_data]
  have h6 : placeholders.length = 6 := by decide
  rw [List.drop_append_eq_append_drop]
  simp only [List.length_append, List.length_cons, h6]
  have h1 : (d ++ "/webserver_private/" ++ identifier).data.length + (6 + 1) - 6 =
      (d ++ "/webserver_private/" ++ identifier).data.length + 1 := by omega
  rw [h1, List.drop_of_length_le (by omega)]
  simp

/-- The cut template is the full text exactly when the full text is shorter than
`PATH_MAX`. -/
theorem cutTemplate_eq_iff (PATH_MAX : Nat) (d identifier : String) :
    cutTemplate PATH_MAX d identifier = fullTemplate d identifier ↔
      (fullTemplate d identifier).length < PATH_MAX := by
  have hne : 0 < (fullTemplate d identifier).data.length := by
    rw [fullTemplate_data]; simp
  constructor
  · intro h
    have h2 := congrArg String.length h
    change ((fullTemplate d identifier).data.take (PATH_MAX - 1)).length =
      (fullTemplate d identifier).data.length at h2
    rw [List.length_take] at h2
    show (fullTemplate d identifier).data.length < PATH_MAX
    omega
  · intro h
    change (fullTemplate d identifier).data.length < PATH_MAX at h
    show (⟨(fullTemplate d identifier).data.take (PATH_MAX - 1)⟩ : String) = _
    rw [List.take_of_length_le (by omega)]

/-! ## The claims on `BufferedUpload` -/

/-- C2: when `mkstemp` fails, leaving `errno` at `e` and the text `t` in the template
buffer, the constructor throws `SystemException` built with the error code `e`,
whatever `snprintf` does to `errno` afterwards, and with the message
"Cannot create a temporary file 't'" cut to 1023 characters; `t` is the template
up to its last six characters; the only call issued is that `mkstemp` (no `fchmod`,
`unlink` or `fdopen`), no directory entry is added, and no object is built. -/
theorem BufferedUpload_mkstemp_failure (PATH_MAX : Nat) (os : Libc) (d identifier : String)
    (s : Sys) (e : Int) (t : String) (s1 : Sys)
    (hmk : mkstemp os (cutTemplate PATH_MAX d identifier)
      (snprintf os PATH_MAX (fullTemplate d identifier) s).2 = (-1, t, s1))
    (he : s1.errno = e) :
    (BufferedUpload.BufferedUpload PATH_MAX os d identifier s).1 =
        .error ⟨⟨("Cannot create a temporary file '" ++ t ++ "'").data.take 1023⟩, e⟩ ∧
      (BufferedUpload.BufferedUpload PATH_MAX os d identifier s).2.calls =
        s.calls ++ [Call.mkstemp (cutTemplate PATH_MAX d identifier)] ∧
      (BufferedUpload.BufferedUpload PATH_MAX os d identifier s).2.entries = s.entries ∧
      t.data.take ((cutTemplate PATH_MAX d identifier).data.length - 6) =
        (cutTemplate PATH_MAX d identifier).data.take
          ((cutTemplate PATH_MAX d identifier).data.length - 6) ∧
      t.data.length = (cutTemplate PATH_MAX d identifier).data.length := by
  have hb := mkstemp_buffer os (cutTemplate PATH_MAX d identifier)
    (snprintf os PATH_MAX (fullTemplate d identifier) s).2
  have hent := mkstemp_entries_of_fail os (cutTemplate PATH_MAX d identifier)
    (snprintf os PATH_MAX (fullTemplate d identifier) s).2 (by rw [hmk])
  rw [hmk] at hb hent
  rw [snprintf_entries] at hent
  refine ⟨?_, constructor_calls_of_fail PATH_MAX os d identifier s t s1 hmk, ?_, hb.1, hb.2⟩
  · rw [constructor_of_fail PATH_MAX os d identifier s t s1 hmk, ← he]
    rfl
  · rw [constructor_of_fail PATH_MAX os d identifier s t s1 hmk, snprintf_entries]
    exact hent

/-- C2, a run: `mkstemp` fails with error code 13 and the following `snprintf`
overwrites `errno` with 34; the exception carries 13. -/
theorem BufferedUpload_mkstemp_failure_run :
    (BufferedUpload.BufferedUpload 4096 libcMkstempFails "/tmp/passenger.1234" "temp"
        freshSys).1 =
      .error ⟨"Cannot create a temporary file '/tmp/passenger.1234/webserver_private/temp.XXXXXX'",
        13⟩ ∧
    (BufferedUpload.BufferedUpload 4096 libcMkstempFails "/tmp/passenger.1234" "temp"
        freshSys).2 =
      ⟨[], 34, [Call.mkstemp "/tmp/passenger.1234/webserver_private/temp.XXXXXX"]⟩ :=
  have h := BufferedUpload_mkstemp_failure 4096 libcMkstempFails "/tmp/passenger.1234" "temp"
    freshSys 13 "/tmp/passenger.1234/webserver_private/temp.XXXXXX"
    ⟨[], 13, [Call.mkstemp "/tmp/passenger.1234/webserver_private/temp.XXXXXX"]⟩
    (by decide) rfl
  ⟨h.1, by decide⟩

/-- C5: when `mkstemp` returns the descriptor `fd` and leaves the name `t` in the
template buffer, the constructor issues, after that `mkstemp`, exactly the calls
`fchmod(fd, 0000)`, `unlink(t)`, `fdopen(fd, "w+")` in this order, whatever each of them
answers: no call closes `fd` before the `unlink`, and the handle stored is the
stream that `fdopen` opened on `fd` in mode `w+`. -/
theorem BufferedUpload_steps (PATH_MAX : Nat) (os : Libc) (d identifier : String)
    (s : Sys) (fd : Int) (t : String) (s1 : Sys)
    (hmk : mkstemp os (cutTemplate PATH_MAX d identifier)
      (snprintf os PATH_MAX (fullTemplate d identifier) s).2 = (fd, t, s1))
    (hfd : fd ≠ -1) :
    (BufferedUpload.BufferedUpload PATH_MAX os d identifier s).2.calls =
        s.calls ++ [Call.mkstemp (cutTemplate PATH_MAX d identifier), Call.fchmod fd 0,
          Call.unlink t, Call.fdopen fd "w+"] ∧
      (BufferedUpload.BufferedUpload PATH_MAX os d identifier s).1 =
        .ok ⟨match os.fdopenErrno with
          | none => some ⟨fd, "w+"⟩
          | some _ => none⟩ := by
  refine ⟨constructor_calls_of_created PATH_MAX os d identifier s fd t s1 hmk hfd, ?_⟩
  rw [constructor_of_created PATH_MAX os d identifier s fd t s1 hmk hfd, fdopen_fst]

/-- C5, a run in which every call succeeds. -/
theorem BufferedUpload_steps_run :
    (BufferedUpload.BufferedUpload 4096 libcOk "/tmp/passenger.1234" "temp" freshSys).2.calls =
        [Call.mkstemp "/tmp/passenger.1234/webserver_private/temp.XXXXXX", Call.fchmod 7 0,
          Call.unlink "/tmp/passenger.1234/webserver_private/temp.a1b2c3",
          Call.fdopen 7 "w+"] ∧
      (BufferedUpload.BufferedUpload 4096 libcOk "/tmp/passenger.1234" "temp" freshSys).1 =
        .ok ⟨some ⟨7, "w+"⟩⟩ :=
  BufferedUpload_steps 4096 libcOk "/tmp/passenger.1234" "temp" freshSys 7
    "/tmp/passenger.1234/webserver_private/temp.a1b2c3"
    ⟨["/tmp/passenger.1234/webserver_private/temp.a1b2c3"], 0,
      [Call.mkstemp "/tmp/passenger.1234/webserver_private/temp.XXXXXX"]⟩
    (by decide) (by decide)

/-- C9: the first call of the constructor is `mkstemp` on the text
`d/webserver_private/identifier.XXXXXX` cut to its first `PATH_MAX - 1` characters;
that template has at most `PATH_MAX - 1` characters; it is the full text exactly
when the full text is shorter than `PATH_MAX`; and the full text ends in the six
placeholders. -/
theorem BufferedUpload_template (PATH_MAX : Nat) (os : Libc) (d identifier : String)
    (s : Sys) :
    (BufferedUpload.BufferedUpload PATH_MAX os d identifier s).2.calls.take
        (s.calls.length + 1) =
        s.calls ++ [Call.mkstemp ⟨(d ++ "/webserver_private/" ++ identifier ++
          ".XXXXXX").data.take (PATH_MAX - 1)⟩] ∧
      (cutTemplate PATH_MAX d identifier).length ≤ PATH_MAX - 1 ∧
      (cutTemplate PATH_MAX d identifier = fullTemplate d identifier ↔
        (fullTemplate d identifier).length < PATH_MAX) ∧
      (fullTemplate d identifier).data.drop ((fullTemplate d identifier).data.length - 6) =
        "XXXXXX".data := by
  refine ⟨?_, ?_, ?_, fullTemplate_ends d identifier⟩
  · show _ = s.calls ++ [Call.mkstemp (cutTemplate PATH_MAX d identifier)]
    rcases hm : mkstemp os (cutTemplate PATH_MAX d identifier)
      (snprintf os PATH_MAX (fullTemplate d identifier) s).2 with ⟨fd, t, s1⟩
    by_cases hfd : fd = -1
    · subst hfd
      rw [constructor_calls_of_fail PATH_MAX os d identifier s t s1 hm]
      simp
    · rw [constructor_calls_of_created PATH_MAX os d identifier s fd t s1 hm hfd]
      rw [List.take_append_eq_append_take]
      simp
  · show ((fullTemplate d identifier).data.take (PATH_MAX - 1)).length ≤ PATH_MAX - 1
    rw [List.length_take]
    omega
  · exact cutTemplate_eq_iff PATH_MAX d identifier

/-! ## Unchecked results: `unlink` and `fdopen` -/

/-- When `mkstemp` returns a descriptor, the name it leaves in the buffer is new and
is the entry added. -/
theorem mkstemp_created_entry (os : Libc) (templ : String) (s : Sys) (fd : Int) (t : String)
    (s1 : Sys) (hmk : mkstemp os templ s = (fd, t, s1)) (hfd : fd ≠ -1) :
    s1.entries = t :: s.entries ∧ t ∉ s.entries ∧
      templ.data.drop (templ.data.length - 6) = placeholders ∧
      ∃ name : Suffix, t = ⟨templ.data.take (templ.data.length - 6) ++ name.chars⟩ := by
  rcases mkstemp_cases os templ s with ⟨e, t0, h⟩ | ⟨fd0, name, hX, hmem, h⟩
  · rw [h] at hmk
    simp only [Prod.mk.injEq] at hmk
    exact absurd hmk.1.symm hfd
  · rw [h] at hmk
    simp only [Prod.mk.injEq] at hmk
    obtain ⟨_, ht, hs⟩ := hmk
    subst ht
    subst hs
    exact ⟨rfl, hmem, hX, name, rfl⟩

/-- Support for C1: in a run where `mkstemp` and `unlink` both succeed, the file has
no directory entry when the constructor returns. -/
theorem BufferedUpload_unlinked (PATH_MAX : Nat) (os : Libc) (d identifier : String)
    (s : Sys) (fd : Int) (t : String) (s1 : Sys)
    (hmk : mkstemp os (cutTemplate PATH_MAX d identifier)
      (snprintf os PATH_MAX (fullTemplate d identifier) s).2 = (fd, t, s1))
    (hfd : fd ≠ -1) (hun : os.unlinkErrno = none) :
    t ∉ (BufferedUpload.BufferedUpload PATH_MAX os d identifier s).2.entries := by
  obtain ⟨hent, _, _, _⟩ := mkstemp_created_entry os _ _ fd t s1 hmk hfd
  rw [constructor_of_created PATH_MAX os d identifier s fd t s1 hmk hfd, fdopen_entries]
  have hin : t ∈ (fchmod os fd 0 s1).2.entries := by
    rw [fchmod_entries, hent]; exact List.mem_cons_self _ _
  unfold unlink
  dsimp only
  rw [if_neg (not_not.mpr hin), hun]
  simp

/-- Support for C1: in a run where `mkstemp` succeeds and `unlink` fails, the
constructor still returns an object, and the file keeps its directory entry. -/
theorem BufferedUpload_not_unlinked (PATH_MAX : Nat) (os : Libc) (d identifier : String)
    (s : Sys) (fd : Int) (t : String) (s1 : Sys) (e : Int)
    (hmk : mkstemp os (cutTemplate PATH_MAX d identifier)
      (snprintf os PATH_MAX (fullTemplate d identifier) s).2 = (fd, t, s1))
    (hfd : fd ≠ -1) (hun : os.unlinkErrno = some e) :
    (∃ b, (BufferedUpload.BufferedUpload PATH_MAX os d identifier s).1 = .ok b) ∧
      t ∈ (BufferedUpload.BufferedUpload PATH_MAX os d identifier s).2.entries := by
  obtain ⟨hent, _, _, _⟩ := mkstemp_created_entry os _ _ fd t s1 hmk hfd
  rw [constructor_of_created PATH_MAX os d identifier s fd t s1 hmk hfd, fdopen_entries]
  refine ⟨⟨_, rfl⟩, ?_⟩
  have hin : t ∈ (fchmod os fd 0 s1).2.entries := by
    rw [fchmod_entries, hent]; exact List.mem_cons_self _ _
  unfold unlink
  dsimp only
  rw [if_neg (not_not.mpr hin), hun]
  exact hin

/-- C1, at a run where `mkstemp` succeeds and the `unlink` that follows fails with
`EPERM`: the constructor throws nothing, it returns an object with an open handle,
and the path of the file still has its directory entry under `webserver_private`. -/
theorem BufferedUpload_unlink_failure_ignored :
    BufferedUpload.BufferedUpload 4096 libcUnlinkFails "/tmp/passenger.1234" "temp" freshSys =
      (.ok ⟨some ⟨7, "w+"⟩⟩,
        ⟨["/tmp/passenger.1234/webserver_private/temp.a1b2c3"], EPERM,
          [Call.mkstemp "/tmp/passenger.1234/webserver_private/temp.XXXXXX", Call.fchmod 7 0,
            Call.unlink "/tmp/passenger.1234/webserver_private/temp.a1b2c3",
            Call.fdopen 7 "w+"]⟩) := by
  decide

/-- C3, at a run where `mkstemp` succeeds and `fdopen` fails with `ENOMEM`: the
constructor throws nothing, it returns an object whose handle is the null pointer,
and the destructor then passes the null pointer to `fclose`. -/
theorem BufferedUpload_fdopen_failure_ignored :
    BufferedUpload.BufferedUpload 4096 libcFdopenFails "/tmp/passenger.1234" "temp" freshSys =
      (.ok ⟨none⟩,
        ⟨[], ENOMEM,
          [Call.mkstemp "/tmp/passenger.1234/webserver_private/temp.XXXXXX", Call.fchmod 7 0,
            Call.unlink "/tmp/passenger.1234/webserver_private/temp.a1b2c3",
            Call.fdopen 7 "w+"]⟩) ∧
      BufferedUpload.destructor ⟨none⟩
        (BufferedUpload.BufferedUpload 4096 libcFdopenFails "/tmp/passenger.1234" "temp"
          freshSys).2 = none := by
  decide

/-- Support for C3: the constructor throws on no path other than a failing
`mkstemp`; whenever `mkstemp` returns a descriptor and `fdopen` fails, the object is
built with a null handle. -/
theorem BufferedUpload_null_handle (PATH_MAX : Nat) (os : Libc) (d identifier : String)
    (s : Sys) (fd : Int) (t : String) (s1 : Sys) (e : Int)
    (hmk : mkstemp os (cutTemplate PATH_MAX d identifier)
      (snprintf os PATH_MAX (fullTemplate d identifier) s).2 = (fd, t, s1))
    (hfd : fd ≠ -1) (hop : os.fdopenErrno = some e) :
    (BufferedUpload.BufferedUpload PATH_MAX os d identifier s).1 = .ok ⟨none⟩ := by
  rw [constructor_of_created PATH_MAX os d identifier s fd t s1 hmk hfd, fdopen_fst, hop]

/-! ## Where the file is created -/

theorem dropWhile_append_stop (p : Char → Bool) (l1 l2 : List Char) (x : Char)
    (h1 : ∀ c ∈ l1, p c = true) (hx : p x = false) :
    (l1 ++ x :: l2).dropWhile p = x :: l2 := by
  induction l1 with
  | nil => simp [List.dropWhile, hx]
  | cons a l ih =>
    have ha : p a = true := h1 a (List.mem_cons_self _ _)
    rw [List.cons_append, List.dropWhile_cons_of_pos ha]
    exact ih fun c hc => h1 c (List.mem_cons_of_mem _ hc)

theorem takeWhile_append_stop (p : Char → Bool) (l1 l2 : List Char) (x : Char)
    (h1 : ∀ c ∈ l1, p c = true) (hx : p x = false) :
    (l1 ++ x :: l2).takeWhile p = l1 := by
  induction l1 with
  | nil => simp [List.takeWhile, hx]
  | cons a l ih =>
    have ha : p a = true := h1 a (List.mem_cons_self _ _)
    rw [List.cons_append, List.takeWhile_cons_of_pos ha,
      ih fun c hc => h1 c (List.mem_cons_of_mem _ hc)]

/-- A path made of a directory, a slash and a name without slash splits into
that directory and that name. -/
theorem split_path (dir name : List Char) (hname : '/' ∉ name) :
    parentDir ⟨dir ++ '/' :: name⟩ = ⟨dir⟩ ∧ fileName ⟨dir ++ '/' :: name⟩ = ⟨name⟩ := by
  have hrev : (dir ++ '/' :: name).reverse = name.reverse ++ '/' :: dir.reverse := by simp
  have h1 : ∀ c ∈ name.reverse, (fun c : Char => decide (c ≠ '/')) c = true := by
    intro c hc
    have : c ≠ '/' := fun h => hname (h ▸ List.mem_reverse.mp hc)
    simpa using this
  have hx : (fun c : Char => decide (c ≠ '/')) '/' = false := by simp
  constructor
  · unfold parentDir
    dsimp only
    rw [hrev, dropWhile_append_stop _ _ _ _ h1 hx]
    simp
  · unfold fileName
    dsimp only
    rw [hrev, takeWhile_append_stop _ _ _ _ h1 hx]
    simp

theorem letter_ne_slash : ∀ i : Fin 62, letter i ≠ '/' := by decide

theorem suffix_no_slash (x : Suffix) : '/' ∉ x.chars := by
  intro h
  simp only [Suffix.chars, List.mem_cons, List.mem_nil_iff, or_false] at h
  rcases h with h | h | h | h | h | h <;> exact letter_ne_slash _ h.symm

/-- The file the constructor creates is the buffer a successful `mkstemp` leaves. -/
theorem createdFile_eq (PATH_MAX : Nat) (os : Libc) (d identifier : String) (s : Sys)
    (p : String) (hp : BufferedUpload.createdFile PATH_MAX os d identifier s = some p) :
    ∃ fd s1, fd ≠ -1 ∧ mkstemp os (cutTemplate PATH_MAX d identifier)
      (snprintf os PATH_MAX (fullTemplate d identifier) s).2 = (fd, p, s1) := by
  unfold BufferedUpload.createdFile at hp
  rw [getDir_template, snprintf_eq] at hp
  dsimp only at hp
  rcases hm : mkstemp os (cutTemplate PATH_MAX d identifier)
    (snprintf os PATH_MAX (fullTemplate d identifier) s).2 with ⟨fd, t, s1⟩
  rw [hm] at hp
  dsimp only at hp
  by_cases hfd : fd = -1
  · rw [if_pos hfd] at hp
    exact absurd hp (by simp)
  · rw [if_neg hfd] at hp
    have : t = p := by simpa using hp
    subst this
    exact ⟨fd, s1, hfd, rfl⟩

/-- C4 as stated fails: with the identifier `../up` the file is created in the
instance directory itself; its parent directory is not `getDir()` and its file name
`up.a1b2c3` does not begin with the identifier. -/
theorem BufferedUpload_location_slash :
    BufferedUpload.createdFile 4096 libcOk "/tmp/passenger.1234" "../up" freshSys =
        some "/tmp/passenger.1234/webserver_private/../up.a1b2c3" ∧
      parentDir "/tmp/passenger.1234/webserver_private/../up.a1b2c3" ≠
        BufferedUpload.getDir "/tmp/passenger.1234" ∧
      fileName "/tmp/passenger.1234/webserver_private/../up.a1b2c3" = "up.a1b2c3" ∧
      ¬ ("../up".data <+: (fileName "/tmp/passenger.1234/webserver_private/../up.a1b2c3").data) := by
  decide

/-- C4, amended: when the identifier holds no slash and the full template is shorter
than `PATH_MAX`, the file the constructor creates lies directly inside
`getDir()`, that is `d/webserver_private`, and its name is the identifier, a dot
and six letters. -/
theorem BufferedUpload_location (PATH_MAX : Nat) (os : Libc) (d identifier : String)
    (s : Sys) (p : String)
    (hid : '/' ∉ identifier.data)
    (hfit : (fullTemplate d identifier).length < PATH_MAX)
    (hp : BufferedUpload.createdFile PATH_MAX os d identifier s = some p) :
    parentDir p = BufferedUpload.getDir d ∧
      parentDir p = d ++ "/webserver_private" ∧
      identifier.data <+: (fileName p).data ∧
      ∃ name : Suffix, fileName p = identifier ++ "." ++ ⟨name.chars⟩ := by
  obtain ⟨fd, s1, hfd, hmk⟩ := createdFile_eq PATH_MAX os d identifier s p hp
  obtain ⟨_, _, _, name, hname⟩ := mkstemp_created_entry os _ _ fd p s1 hmk hfd
  have hcut : cutTemplate PATH_MAX d identifier = fullTemplate d identifier :=
    (cutTemplate_eq_iff PATH_MAX d identifier).mpr hfit
  have hA : (d ++ "/webserver_private/" ++ identifier).data =
      (BufferedUpload.getDir d).data ++ '/' :: identifier.data := by
    simp [BufferedUpload.getDir]
  have hstem : (fullTemplate d identifier).data.take ((fullTemplate d identifier).data.length - 6) =
      ((BufferedUpload.getDir d).data ++ '/' :: identifier.data) ++ ['.'] := by
    rw [fullTemplate_data, hA]
    generalize (BufferedUpload.getDir d).data ++ '/' :: identifier.data = A
    have h6 : placeholders.length = 6 := by decide
    have hl : (A ++ '.' :: placeholders).length - 6 = A.length + 1 := by
      simp only [List.length_append, List.length_cons, h6]
      omega
    rw [hl, List.take_append_eq_append_take, List.take_of_length_le (by omega)]
    simp
  rw [hcut, hstem] at hname
  have hp2 : p = ⟨(BufferedUpload.getDir d).data ++ '/' :: (identifier.data ++ '.' :: name.chars)⟩ := by
    rw [hname]; simp
  have hns : '/' ∉ identifier.data ++ '.' :: name.chars := by
    intro h
    rcases List.mem_append.mp h with h | h
    · exact hid h
    · rcases List.mem_cons.mp h with h | h
      · exact absurd h (by decide)
      · exact suffix_no_slash name h
  obtain ⟨hdir, hfile⟩ := split_path (BufferedUpload.getDir d).data _ hns
  rw [← hp2] at hdir hfile
  refine ⟨hdir, hdir, ?_, name, ?_⟩
  · rw [hfile]
    exact List.prefix_append _ _
  · rw [hfile]
    apply String.ext
    simp

/-- C4, amended, on a run: the identifier `temp` in the directory
`/tmp/passenger.1234`. -/
theorem BufferedUpload_location_run :
    parentDir "/tmp/passenger.1234/webserver_private/temp.a1b2c3" =
        BufferedUpload.getDir "/tmp/passenger.1234" ∧
      parentDir "/tmp/passenger.1234/webserver_private/temp.a1b2c3" =
        "/tmp/passenger.1234" ++ "/webserver_private" ∧
      "temp".data <+: (fileName "/tmp/passenger.1234/webserver_private/temp.a1b2c3").data ∧
      ∃ name : Suffix, fileName "/tmp/passenger.1234/webserver_private/temp.a1b2c3" =
        "temp" ++ "." ++ ⟨name.chars⟩ :=
  BufferedUpload_location 4096 libcOk "/tmp/passenger.1234" "temp" freshSys
    "/tmp/passenger.1234/webserver_private/temp.a1b2c3" (by decide) (by decide) (by decide)

/-- A template that `snprintf` cuts right behind an `XXXXXX` inside the identifier is
still accepted by `mkstemp`. -/
theorem createdFile_cut (d : String) (hd : d.data.length = 4068) :
    BufferedUpload.createdFile 4096 libcOk d "abXXXXXXcd" freshSys =
      some ⟨d.data ++ "/webserver_private/aba1b2c3".data⟩ := by
  have hfull : (fullTemplate d "abXXXXXXcd").data =
      d.data ++ "/webserver_private/abXXXXXXcd.XXXXXX".data := by
    simp [fullTemplate]
  have hcut : cutTemplate 4096 d "abXXXXXXcd" =
      ⟨d.data ++ "/webserver_private/abXXXXXX".data⟩ := by
    unfold cutTemplate
    rw [hfull, List.take_append_eq_append_take, List.take_of_length_le (by omega), hd]
    rfl
  have hlen : (d.data ++ "/webserver_private/abXXXXXX".data).length - 6 = 4068 + 21 := by
    rw [List.length_append, hd]; rfl
  have hX : (cutTemplate 4096 d "abXXXXXXcd").data.drop
      ((cutTemplate 4096 d "abXXXXXXcd").data.length - 6) = placeholders := by
    rw [hcut]
    show (d.data ++ "/webserver_private/abXXXXXX".data).drop
      ((d.data ++ "/webserver_private/abXXXXXX".data).length - 6) = placeholders
    rw [hlen, List.drop_append_eq_append_drop, List.drop_of_length_le (by omega), hd]
    rfl
  have hstem : (cutTemplate 4096 d "abXXXXXXcd").data.take
      ((cutTemplate 4096 d "abXXXXXXcd").data.length - 6) ++ (⟨0, 53, 1, 54, 2, 55⟩ : Suffix).chars =
        d.data ++ "/webserver_private/aba1b2c3".data := by
    rw [hcut]
    show (d.data ++ "/webserver_private/abXXXXXX".data).take
      ((d.data ++ "/webserver_private/abXXXXXX".data).length - 6) ++ _ = _
    rw [hlen, List.take_append_eq_append_take, List.take_of_length_le (by omega), hd,
      List.append_assoc]
    rfl
  unfold BufferedUpload.createdFile
  rw [getDir_template, snprintf_eq]
  dsimp only
  rw [mkstemp_created libcOk _ _ 7 ⟨0, 53, 1, 54, 2, 55⟩ hX rfl (by
    rw [snprintf_entries]; exact List.not_mem_nil _)]
  dsimp only
  rw [if_neg (by decide), hstem]

/-- Support for C4: the length condition of the amended claim is needed. With a
directory of 4068 characters and the identifier `abXXXXXXcd` the full template has
4104 characters, the template is cut behind `abXXXXXX`, and the file created,
`aba1b2c3`, does not begin with the identifier. -/
theorem location_cut (d : String) (hd : d.data.length = 4068) :
    (fullTemplate d "abXXXXXXcd").length = 4104 ∧
      BufferedUpload.createdFile 4096 libcOk d "abXXXXXXcd" freshSys =
        some (BufferedUpload.getDir d ++ "/aba1b2c3") ∧
      fileName (BufferedUpload.getDir d ++ "/aba1b2c3") = "aba1b2c3" ∧
      ¬ ("abXXXXXXcd".data <+: "aba1b2c3".data) := by
  refine ⟨?_, ?_, ?_, by decide⟩
  · show (fullTemplate d "abXXXXXXcd").data.length = 4104
    have hfull : (fullTemplate d "abXXXXXXcd").data =
        d.data ++ "/webserver_private/abXXXXXXcd.XXXXXX".data := by
      simp [fullTemplate]
    rw [hfull, List.length_append, hd]
    rfl
  · rw [createdFile_cut d hd]
    congr 1
    apply String.ext
    simp [BufferedUpload.getDir]
  · have h : BufferedUpload.getDir d ++ "/aba1b2c3" =
        ⟨(BufferedUpload.getDir d).data ++ '/' :: "aba1b2c3".data⟩ := by
      apply String.ext
      simp
    rw [h]
    exact (split_path _ _ (by decide)).2

/-- Support for C4: the run of `location_cut` in a directory of 4068 characters. -/
theorem BufferedUpload_location_cut :
    (fullTemplate longDir "abXXXXXXcd").length = 4104 ∧
      BufferedUpload.createdFile 4096 libcOk longDir "abXXXXXXcd" freshSys =
        some (BufferedUpload.getDir longDir ++ "/aba1b2c3") ∧
      fileName (BufferedUpload.getDir longDir ++ "/aba1b2c3") = "aba1b2c3" ∧
      ¬ ("abXXXXXXcd".data <+: "aba1b2c3".data) :=
  location_cut longDir (by
    show ('/' :: List.replicate 4067 'a').length = 4068
    rw [List.length_cons, List.length_replicate])

/-! ## The functions modelled from the specification -/

/-- C6: `determineLowestUserAndGroup` leaves the ids of the named user when that
user exists; otherwise the ids of the account `nobody` when that account exists;
otherwise -1 and -1; and the last route is taken exactly when neither account
exists. -/
theorem determineLowestUserAndGroup_chain (accounts : String → Option Account)
    (user : String) :
    (∀ a, accounts user = some a →
      (determineLowestUserAndGroup accounts user).uid = a.uid ∧
      (determineLowestUserAndGroup accounts user).gid = a.gid) ∧
    (accounts user = none → ∀ a, accounts "nobody" = some a →
      (determineLowestUserAndGroup accounts user).uid = a.uid ∧
      (determineLowestUserAndGroup accounts user).gid = a.gid) ∧
    (accounts user = none → accounts "nobody" = none →
      (determineLowestUserAndGroup accounts user).uid = -1 ∧
      (determineLowestUserAndGroup accounts user).gid = -1) ∧
    ((determineLowestUserAndGroup accounts user).provenance = .UNRESOLVED ↔
      accounts user = none ∧ accounts "nobody" = none) := by
  unfold determineLowestUserAndGroup
  cases hu : accounts user with
  | some a => simp
  | none =>
    cases hn : accounts "nobody" with
    | some a => simp
    | none => simp

/-- C6 on two account databases: an unknown user falls back to `nobody`, and with
no account at all both ids are -1. -/
theorem determineLowestUserAndGroup_chain_run :
    determineLowestUserAndGroup sampleAccounts "deploy" = ⟨1001, 1001, .EXPLICIT⟩ ∧
      ((determineLowestUserAndGroup sampleAccounts "ghost").uid = 65534 ∧
        (determineLowestUserAndGroup sampleAccounts "ghost").gid = 65534) ∧
      ((determineLowestUserAndGroup noAccounts "ghost").uid = -1 ∧
        (determineLowestUserAndGroup noAccounts "ghost").gid = -1) :=
  ⟨by decide,
    (determineLowestUserAndGroup_chain sampleAccounts "ghost").2.1 (by decide) ⟨65534, 65534⟩
      (by decide),
    (determineLowestUserAndGroup_chain noAccounts "ghost").2.2.1 rfl rfl⟩

theorem freshTempDir_ne_empty (getSystemTempDir token systemTempDir : String) :
    freshTempDir getSystemTempDir token systemTempDir ≠ "" := by
  intro h
  have hl := congrArg String.length h
  simp only [freshTempDir, String.length_append] at hl
  have h1 : "/".length = 1 := by decide
  have h0 : "".length = 0 := by decide
  omega

theorem getPassengerTempDir_of_set (getSystemTempDir token systemTempDir value : String)
    (hne : value ≠ "") :
    getPassengerTempDir getSystemTempDir token false systemTempDir (some value) =
      (value, some value) := by
  unfold getPassengerTempDir
  dsimp only
  rw [if_neg hne]

/-- Support for C7: the postcondition of section 4.4 and of the header: the result
of `getPassengerTempDir` is never empty, whatever the binding and the arguments. -/
theorem getPassengerTempDir_nonempty (getSystemTempDir token systemTempDir : String)
    (bypassCache : Bool) (binding : Option String) :
    (getPassengerTempDir getSystemTempDir token bypassCache systemTempDir binding).1 ≠ "" := by
  cases bypassCache with
  | true => exact freshTempDir_ne_empty getSystemTempDir token systemTempDir
  | false =>
    cases binding with
    | none => exact freshTempDir_ne_empty getSystemTempDir token systemTempDir
    | some value =>
      by_cases hv : value = ""
      · unfold getPassengerTempDir
        dsimp only
        rw [if_pos hv]
        exact freshTempDir_ne_empty getSystemTempDir token systemTempDir
      · rw [getPassengerTempDir_of_set getSystemTempDir token systemTempDir value hv]
        exact hv

theorem bindingAfter_some (getSystemTempDir token : String) (calls : List (Bool × String))
    (value : String) (hne : value ≠ "") :
    bindingAfter getSystemTempDir token calls (some value) = some value := by
  induction calls with
  | nil => rfl
  | cons c rest ih =>
    obtain ⟨bypassCache, systemTempDir⟩ := c
    cases bypassCache with
    | true => exact ih
    | false =>
      unfold bindingAfter
      rw [getPassengerTempDir_of_set getSystemTempDir token systemTempDir value hne]
      exact ih

/-- C7 as stated fails at a binding that is set to the empty text: the call with
`bypassCache` false does not return that value, it returns a fresh path and binds
the variable to it, so the binding that was set is overwritten. -/
theorem getPassengerTempDir_empty_binding :
    getPassengerTempDir "/tmp" "passenger.1234" false "" (some "") =
        ("/tmp/passenger.1234", some "/tmp/passenger.1234") ∧
      (getPassengerTempDir "/tmp" "passenger.1234" false "" (some "")).1 ≠ "" ∧
      (getPassengerTempDir "/tmp" "passenger.1234" false "" (some "")).2 ≠ some "" ∧
      bindingAfter "/tmp" "passenger.1234" [(false, "")] (some "") ≠ some "" := by
  decide

/-- C7, amended: with `bypassCache` false, `getPassengerTempDir` returns a binding
that is set to a text other than the empty one verbatim and leaves it as it is;
when the variable is not set, or set to the empty text, it binds the variable to
the value it returns; with `bypassCache` true it leaves the binding as it is; so
over any sequence of calls a binding to a text other than the empty one keeps its
value. -/
theorem getPassengerTempDir_binding (getSystemTempDir token systemTempDir value : String)
    (calls : List (Bool × String)) (hne : value ≠ "") :
    getPassengerTempDir getSystemTempDir token false systemTempDir (some value) =
        (value, some value) ∧
      (getPassengerTempDir getSystemTempDir token false systemTempDir none).2 =
        some (getPassengerTempDir getSystemTempDir token false systemTempDir none).1 ∧
      (getPassengerTempDir getSystemTempDir token false systemTempDir (some "")).2 =
        some (getPassengerTempDir getSystemTempDir token false systemTempDir (some "")).1 ∧
      (∀ binding, (getPassengerTempDir getSystemTempDir token true systemTempDir binding).2 =
        binding) ∧
      bindingAfter getSystemTempDir token calls (some value) = some value := by
  refine ⟨getPassengerTempDir_of_set getSystemTempDir token systemTempDir value hne, rfl, rfl,
    fun binding => ?_, bindingAfter_some getSystemTempDir token calls value hne⟩
  cases binding <;> rfl

/-- C7, amended, in a process whose parent bound the variable to
`/tmp/passenger.77`: three calls, one of them bypassing the binding, leave it as
it is. -/
theorem getPassengerTempDir_binding_run :
    getPassengerTempDir "/tmp" "passenger.1234" false "" (some "/tmp/passenger.77") =
        ("/tmp/passenger.77", some "/tmp/passenger.77") ∧
      (getPassengerTempDir "/tmp" "passenger.1234" false "" none).2 =
        some (getPassengerTempDir "/tmp" "passenger.1234" false "" none).1 ∧
      (getPassengerTempDir "/tmp" "passenger.1234" false "" (some "")).2 =
        some (getPassengerTempDir "/tmp" "passenger.1234" false "" (some "")).1 ∧
      (∀ binding, (getPassengerTempDir "/tmp" "passenger.1234" true "" binding).2 =
        binding) ∧
      bindingAfter "/tmp" "passenger.1234" [(false, ""), (true, "/var/tmp"), (false, "/x")]
        (some "/tmp/passenger.77") = some "/tmp/passenger.77" :=
  getPassengerTempDir_binding "/tmp" "passenger.1234" "" "/tmp/passenger.77"
    [(false, ""), (true, "/var/tmp"), (false, "/x")] (by decide)

/-- A query that made a real `stat` at time `t1` and saw the type `a` leaves an entry
for the path with that type and that time at the head of the cache. -/
theorem classify_fresh_entry (disk : String → StatAnswer) (t1 : Nat)
    (c0 c1 : CachedMultiFileStat) (path : String) (throttleRate : Nat) (a : FileType)
    (h1 : classify disk t1 c0 path throttleRate = (.ok a, c1))
    (hstat : c1.statCalls = c0.statCalls + 1) :
    ∃ rest, c1.entries = ⟨path, a, t1⟩ :: rest := by
  unfold classify at h1
  cases hf : c0.entries.find? (fun e => e.path = path) with
  | none =>
    rw [hf] at h1
    dsimp only at h1
    cases hs : statFileType disk path with
    | error x => rw [hs] at h1; simp at h1
    | ok t =>
      rw [hs] at h1
      simp only [Prod.mk.injEq, Except.ok.injEq] at h1
      obtain ⟨rfl, rfl⟩ := h1
      exact ⟨_, rfl⟩
  | some entry =>
    rw [hf] at h1
    dsimp only at h1
    by_cases hc : throttleRate = 0 ∨ throttleRate < t1 - entry.lastCheckedAt
    · rw [if_pos hc] at h1
      cases hs : statFileType disk path with
      | error x => rw [hs] at h1; simp at h1
      | ok t =>
        rw [hs] at h1
        simp only [Prod.mk.injEq, Except.ok.injEq] at h1
        obtain ⟨rfl, rfl⟩ := h1
        exact ⟨_, rfl⟩
    · rw [if_neg hc] at h1
      simp only [Prod.mk.injEq] at h1
      obtain ⟨_, rfl⟩ := h1
      omega

/-- C8: after a first query that made a real `stat` at time `t1` and saw the type
`a`, a query of the same path at a time `t2` less than the throttle interval after
`t1` returns `a` and makes no `stat`, whatever the disk holds by then; a query at a
time `t3` more than the throttle interval after `t1` makes a real `stat` and
returns the type the disk holds then. -/
theorem getFileType_throttle (disk1 disk2 disk3 : String → StatAnswer) (path : String)
    (throttleRate t1 t2 t3 : Nat) (c0 c1 : CachedMultiFileStat) (a b : FileType)
    (h1 : getFileType disk1 t1 path (some c0) throttleRate = (.ok a, some c1))
    (hstat : c1.statCalls = c0.statCalls + 1)
    (h2 : t2 - t1 < throttleRate)
    (h3 : throttleRate < t3 - t1)
    (hb : statFileType disk3 path = .ok b) :
    getFileType disk2 t2 path (some c1) throttleRate = (.ok a, some c1) ∧
      ∃ c3, getFileType disk3 t3 path (some c1) throttleRate = (.ok b, some c3) ∧
        c3.statCalls = c1.statCalls + 1 := by
  have h1c : classify disk1 t1 c0 path throttleRate = (.ok a, c1) := by
    unfold getFileType at h1
    simp only [Prod.mk.injEq, Option.some.injEq] at h1
    exact Prod.ext h1.1 h1.2
  obtain ⟨rest, hent⟩ := classify_fresh_entry disk1 t1 c0 c1 path throttleRate a h1c hstat
  have hfind : c1.entries.find? (fun e => e.path = path) = some ⟨path, a, t1⟩ := by
    rw [hent]; simp
  constructor
  · have hc : ¬ (throttleRate = 0 ∨ throttleRate < t2 - t1) := by omega
    simp only [getFileType, classify, hfind, if_neg hc]
  · have hc : throttleRate = 0 ∨ throttleRate < t3 - t1 := Or.inr h3
    refine ⟨⟨⟨path, b, t3⟩ :: c1.entries.filter (fun e => e.path ≠ path),
      c1.statCalls + 1⟩, ?_, rfl⟩
    simp only [getFileType, classify, hfind, if_pos hc, hb]

/-- C8 on the scenario of the specification: the file is seen at time 0 with a
throttle interval of 2000, then removed; the query at time 500 still answers
`FT_REGULAR` and the query at time 2100 answers `FT_NONEXISTANT`. -/
theorem getFileType_throttle_run :
    getFileType diskRemoved 500 "/srv/app/config.ru"
        (some ⟨[⟨"/srv/app/config.ru", .FT_REGULAR, 0⟩], 1⟩) 2000 =
      (.ok .FT_REGULAR, some ⟨[⟨"/srv/app/config.ru", .FT_REGULAR, 0⟩], 1⟩) ∧
    ∃ c3, getFileType diskRemoved 2100 "/srv/app/config.ru"
        (some ⟨[⟨"/srv/app/config.ru", .FT_REGULAR, 0⟩], 1⟩) 2000 =
          (.ok .FT_NONEXISTANT, some c3) ∧
      c3.statCalls = 1 + 1 :=
  getFileType_throttle diskDeployed diskRemoved diskRemoved "/srv/app/config.ru" 2000 0 500
    2100 ⟨[], 0⟩ ⟨[⟨"/srv/app/config.ru", .FT_REGULAR, 0⟩], 1⟩ .FT_REGULAR .FT_NONEXISTANT
    (by decide) (by decide) (by decide) (by decide) (by decide)

end Passenger
